import Mathlib

/-!
Verification development for the Mathics3-trepan debugger core.

This file gives a shallow embedding, in Lean 4, of the event dispatch and
stop-decision core of the debugger:

* `pymathics/trepan/lib/core.py` — `DebuggerCore` with `is_stop_here`,
  `_is_step_next_stop`, `is_break_here`, `matches_condition`, `trace_dispatch`;
* `pymathics/debugger/lib/stack.py` — `count_frames`;
* `pymathics/trepan/processor/cmdproc.py` — `CommandProcessor.process_command`,
  `arg_split`, `resolve_name`, `ok_for_running`, and the surrounding command loop.

Python's mutable object state is embedded as explicit state passing: each
method of `DebuggerCore` becomes a function `DebuggerCore → ... → result ×
DebuggerCore`.  Python exceptions are embedded as explicit result variants.
External collaborators (the trepan `BreakpointManager`, the host settings
store, compiled condition expressions, the trace filter) are embedded as
explicit data or as function-valued fields, modelled from the specification
where their code is not part of this repository.
-/

namespace MathicsTrepan

/-- Embeds a Python code object as used by the debugger core: only the
`co_filename` and `co_name` attributes are consulted. -/
structure Code where
  co_filename : String
  co_name : String
deriving DecidableEq, Repr

/-- Embeds a Python execution frame as used by the debugger core: a code
object, a current line number, and the dynamic-caller chain `f_back`.
A frame either is the outermost frame (`top`, `f_back is None`) or pushes
onto a caller (`push`).  Lean structural equality of the whole chain stands
in for Python object identity of frames. -/
inductive Frame where
  | top (code : Code) (lineno : Int)
  | push (code : Code) (lineno : Int) (back : Frame)
deriving DecidableEq, Repr

/-- `frame.f_code`. -/
def Frame.f_code : Frame → Code
  | .top c _ => c
  | .push c _ _ => c

/-- `frame.f_lineno`. -/
def Frame.f_lineno : Frame → Int
  | .top _ l => l
  | .push _ l _ => l

/-- `frame.f_back`, `None` for the outermost frame. -/
def Frame.f_back : Frame → Option Frame
  | .top _ _ => none
  | .push _ _ b => some b

/-- Embeds `count_frames` from `pymathics/debugger/lib/stack.py`:
`count = -count_start; while frame: count += 1; frame = frame.f_back`.
The while loop is unrolled along the caller chain. -/
def count_frames : Frame → Int → Int
  | .top _ _, count_start => 1 - count_start
  | .push _ _ back, count_start => count_frames back count_start + 1

/-- Embeds the argument ("arg") passed to the trace callback.  For the
domain-specific events the dispatch code destructures the payload; only the
pieces it actually consults are carried here (extracted names, the
`skip_trivial_evaluation` verdict, which is a pure function of the payload). -/
inductive EventArg where
  /-- a payload the dispatch code never destructures (line/call/return events) -/
  | plain
  /-- `(bound_mpmath_method, call_args)`; carries `bound_mpmath_method.__func__.__name__` -/
  | mpmathA (func_name : String)
  /-- `(sympy_function, call_args)`; carries `sympy_function.__name__` -/
  | sympyA (func_name : String)
  /-- `(file_path, call_args)` for `Get` events -/
  | getA (file_path : String)
  /-- `(expr, _, status, orig_expr, _)` for evaluate events; carries
  `expr.get_name()`, `orig_expr.get_name(short=True)`, `orig_expr.get_name(short=False)`
  and the Boolean verdict of `skip_trivial_evaluation(expr, status, orig_expr)` -/
  | evalA (expr_name : String) (orig_short_name : String) (orig_full_name : String)
      (trivial : Bool)
deriving DecidableEq, Repr

/-- Embeds the value stored into `self.arg` by `trace_dispatch`: either the
raw callback argument, or the triple the mpmath/SymPy branches rebuild
(`(name, fn, call_args)`), of which we keep the extracted name. -/
inductive StoredArg where
  | raw (a : EventArg)
  | mpmathTriple (name : String)
  | sympyTriple (name : String)
deriving DecidableEq, Repr

/-- Embeds a breakpoint record of the trepan `BreakpointManager`.

Modelled from the spec: the `Breakpoint` data model (identifying number,
temporary flag, enabled flag, optional condition expression) is owned by the
external trepan breakpoint manager, whose code is not part of this
repository.  The condition is embedded as its evaluation in a frame's
variable context: `none` result means the evaluation raised. -/
structure Breakpoint where
  number : Nat
  temporary : Bool
  enabled : Bool
  condition : Option (Frame → Option Bool)

/-- Embeds the trepan `BreakpointManager` state consulted by `is_break_here`.

Modelled from the spec: the manager (external dependency) maps function
names to breakpoints (`fnlist`, consulted on call events; the entry holds
the first element of the manager's per-function list) and (canonical file,
line) pairs to breakpoint lists (`bplist`). -/
structure BreakpointManager where
  fnlist : List (String × Breakpoint)
  bplist : List ((String × Int) × List Breakpoint)

/-- Modelled from the spec: scanning one `bplist` entry for a hit.  A
disabled breakpoint is skipped; a breakpoint without condition hits and may
be cleared; a conditional breakpoint whose condition evaluates truthy hits
and may be cleared; one whose evaluation raises hits but must not be cleared
(fail-open, preserving a temporary as a hint); one whose condition is falsy
is not a hit. -/
def scan_bps (frame : Frame) : List Breakpoint → Option Breakpoint × Bool
  | [] => (none, false)
  | bp :: rest =>
    if bp.enabled then
      match bp.condition with
      | none => (some bp, true)
      | some cond =>
        match cond frame with
        | some true => (some bp, true)
        | some false => scan_bps frame rest
        | none => (some bp, false)
    else scan_bps frame rest

/-- Modelled from the spec: `bpmgr.find_bp(filename, lineno, frame)` of the
external manager.  Returns the hit breakpoint (if any) and the `clear_bp`
flag telling the caller whether a temporary breakpoint may be deleted. -/
def find_bp (mgr : BreakpointManager) (filename : String) (lineno : Int)
    (frame : Frame) : Option Breakpoint × Bool :=
  match mgr.bplist.lookup (filename, lineno) with
  | none => (none, false)
  | some bps => scan_bps frame bps

/-- Modelled from the spec: `bpmgr.delete_breakpoint(bp)` of the external
manager removes the breakpoint (identified by its number) from the index. -/
def delete_breakpoint (mgr : BreakpointManager) (bp : Breakpoint) : BreakpointManager :=
  { fnlist := mgr.fnlist.filter (fun p => p.2.number ≠ bp.number)
    bplist := mgr.bplist.map (fun p => (p.1, p.2.filter (fun b => b.number ≠ bp.number))) }

/-- Embeds the `DebuggerCore` instance state of
`pymathics/trepan/lib/core.py` together with the configuration it reads from
its collaborators (`self.debugger.settings`, the module-level
`event_filters` dict from `pymathics.trepan.tracing`).  Function-valued
fields embed external callables: the trace filter predicate, the compiled
`until_condition` expression (`none` result = evaluation raised), and
`canonic` (filename canonicalization, which consults the filesystem and is
stable during a stop). -/
structure DebuggerCore where
  /-- `self.step_events`; `None` means all events qualify for stepping -/
  step_events : Option (List String)
  /-- `self.step_ignore`: remaining skip count; negative means never stop via stepping -/
  step_ignore : Int
  /-- `self.last_frame`: cache key for the depth computation -/
  last_frame : Option Frame
  /-- `self.last_level`: cached depth (initialized to 10000) -/
  last_level : Int
  /-- `self.stop_level`: frame-depth threshold while next'ing/finish'ing -/
  stop_level : Option Int
  /-- `self.stop_on_finish` -/
  stop_on_finish : Bool
  /-- `self.last_lineno` -/
  last_lineno : Option Int
  /-- `self.last_filename` -/
  last_filename : Option String
  /-- `self.different_line` -/
  different_line : Bool
  /-- `self.stop_reason` -/
  stop_reason : String
  /-- `self.event` -/
  event : Option String
  /-- `self.arg` (set by `trace_dispatch`) -/
  arg : Option StoredArg
  /-- `self.current_bp` -/
  current_bp : Option Breakpoint
  /-- `self.ignore_filter` with `is_excluded`; `none` embeds a falsy filter -/
  ignore_filter : Option (Frame → Bool)
  /-- `self.until_condition`; `some` embeds a truthy (non-empty) condition -/
  until_condition : Option (Frame → Option Bool)
  /-- `self.debugger.settings["trace"]` -/
  trace_setting : Bool
  /-- `self.debugger.settings["printset"]` -/
  printset : List String
  /-- `self.debugger.settings["events"]`; `None` never dispatches -/
  events_setting : Option (List String)
  /-- module-level `event_filters` dict: per-event-type name filter sets -/
  event_filters : List (String × List String)
  /-- `self.ignore_code` -/
  ignore_code : List Code
  /-- `self.bpmgr` -/
  bpmgr : BreakpointManager
  /-- `self.canonic`, abstracting the filename cache and filesystem lookups -/
  canonic : String → String

/-- Embeds the guard of `DebuggerCore._is_step_next_stop`:
`if self.step_events and event not in self.step_events` — `None` and the
empty list are both falsy. -/
def step_events_restricts (step_events : Option (List String)) (event : String) : Bool :=
  match step_events with
  | none => false
  | some l => !l.isEmpty && !l.contains event

/-- Embeds `DebuggerCore._is_step_next_stop` (core.py lines 398-406). -/
def is_step_next_stop (s : DebuggerCore) (event : String) : Bool × DebuggerCore :=
  if step_events_restricts s.step_events event then (false, s)
  else if s.step_ignore = 0 then (true, s)
  else if s.step_ignore > 0 then (false, { s with step_ignore := s.step_ignore - 1 })
  else (false, s)

/-- Embeds the `different_line` duplicate-line guard at the top of
`DebuggerCore.is_stop_here`: suppress when `different_line` is set, the
event is a line event, and (line, file) equal the last recorded pair. -/
def line_suppressed (s : DebuggerCore) (frame : Frame) (event : String) : Bool :=
  s.different_line && event == "line" && s.last_lineno == some frame.f_lineno
    && s.last_filename == some frame.f_code.co_filename

/-- The tail of `DebuggerCore.is_stop_here`: the stepping check, setting
`stop_reason` on a stop. -/
def stepping_check (s : DebuggerCore) (event : String) : Bool × DebuggerCore :=
  match is_step_next_stop s event with
  | (true, s1) => (true, { s1 with stop_reason := "at a stepping statement" })
  | (false, s1) => (false, s1)

/-- Embeds `DebuggerCore.is_stop_here` (core.py lines 345-396): the
duplicate-line guard, the unconditional last-seen (line, file) update, the
`stop_level` gate with its frame-identity-keyed depth cache and the
finish-return stop, then the stepping check. -/
def is_stop_here (s : DebuggerCore) (frame : Frame) (event : String) :
    Bool × DebuggerCore :=
  if line_suppressed s frame event then (false, s)
  else
    let s1 : DebuggerCore :=
      { s with last_lineno := some frame.f_lineno
               last_filename := some frame.f_code.co_filename }
    match s1.stop_level with
    | none => stepping_check s1 event
    | some sl =>
      let s2 : DebuggerCore :=
        if s1.last_frame ≠ some frame then
          { s1 with last_level := count_frames frame 0, last_frame := some frame }
        else s1
      if s2.last_level > sl then (false, s2)
      else if s2.last_level = sl ∧ s2.stop_on_finish = true
          ∧ (event = "return" ∨ event = "c_return") then
        (true, { s2 with stop_level := none
                         stop_reason := "in return for 'finish' command" })
      else stepping_check s2 event

/-- Runs `is_stop_here` over a sequence of (frame, event) pairs, recording
each stop decision together with the `step_ignore` value after the event. -/
def run_stop_events (s : DebuggerCore) :
    List (Frame × String) → List (Bool × Int) × DebuggerCore
  | [] => ([], s)
  | (f, e) :: rest =>
    let r1 := is_stop_here s f e
    let rs := run_stop_events r1.2 rest
    ((r1.1, r1.2.step_ignore) :: rs.1, rs.2)

/-- An event qualifies for the stepping logic when the configured step-event
set does not exclude it (`None` and the empty set allow everything). -/
def step_event_qualifies (step_events : Option (List String)) (event : String) : Bool :=
  !step_events_restricts step_events event

/-- Embeds `DebuggerCore.matches_condition` (core.py lines 332-343):
evaluate `until_condition` in the frame's variable context; when the
evaluation raises, return `False`. -/
def matches_condition (cond : Frame → Option Bool) (frame : Frame) : Bool :=
  match cond frame with
  | none => false
  | some val => val

/-- Embeds `DebuggerCore.is_break_here` (core.py lines 293-330): on a call
event, scan breakpoints keyed by function name; then look up
(canonical file, line) in the breakpoint index; a hit sets `current_bp`,
`stop_reason` (with a "temporary " qualifier when the breakpoint is
temporary and may be cleared, in which case it is also deleted) and rewrites
`self.event` to `"brkpt"`. -/
def is_break_here (s : DebuggerCore) (frame : Frame) : Bool × DebuggerCore :=
  let filename := s.canonic frame.f_code.co_filename
  match (if s.event = some "call" then
           s.bpmgr.fnlist.find? (fun p => p.1 = frame.f_code.co_name)
         else none) with
  | some p =>
    let bp := p.2
    let msg := if bp.temporary then "temporary " else ""
    let mgr := if bp.temporary then delete_breakpoint s.bpmgr bp else s.bpmgr
    (true, { s with current_bp := some bp
                    bpmgr := mgr
                    stop_reason := "at " ++ msg ++ "call breakpoint " ++ toString bp.number
                    event := some "brkpt" })
  | none =>
    if (s.bpmgr.bplist.lookup (filename, frame.f_lineno)).isSome then
      match find_bp s.bpmgr filename frame.f_lineno frame with
      | (some bp, clear_bp) =>
        let msg := if clear_bp ∧ bp.temporary then "temporary " else ""
        let mgr := if clear_bp ∧ bp.temporary then delete_breakpoint s.bpmgr bp else s.bpmgr
        (true, { s with current_bp := some bp
                        bpmgr := mgr
                        stop_reason := "at " ++ msg ++ "line breakpoint " ++ toString bp.number
                        event := some "brkpt" })
      | (none, _) => (false, s)
    else (false, s)

/-- Observable side effects of `trace_dispatch` other than its return value
and the state mutation: messages printed to stdout and invocations of the
command processor's `event_processor`. -/
inductive Effect where
  | printed (msg : String)
  | processorInvoked (event : String)
deriving DecidableEq, Repr

/-- The value `trace_dispatch` hands back to the host tracing machinery. -/
inductive DispatchResult where
  /-- `return self`: keep tracing, no stop -/
  | keepTracing
  /-- a bare `return` (None) from one of the filter branches: event dropped -/
  | dropped
  /-- `return self.processor.event_processor(frame, event, arg)`: a stop -/
  | processorCall (event : String)
  /-- a Python runtime error the source would raise (e.g. unpacking a
  payload of the wrong shape); not reachable for well-shaped events -/
  | runtimeError (msg : String)
deriving DecidableEq, Repr

/-- The backquote character, as tested by `name.find("`") == -1` in the
evaluate-result branch. -/
def backquoteChar : Char := Char.ofNat 96

/-- The per-event-type filter branches of `trace_dispatch` (core.py lines
442-488), entered when `event_filters.get(event)` is not `None`.  Returns
the dispatch outcome, the state (whose `arg` the mpmath/SymPy branches
rewrite), and printed output (the unhandled-event diagnostic). -/
def dispatch_filter_branches (s : DebuggerCore) (frame : Frame) (event : String)
    (arg : EventArg) (ef : List String) : DispatchResult × DebuggerCore × List Effect :=
  if event = "mpmath" ∧ ¬ ef.isEmpty then
    match arg with
    | .mpmathA nm =>
      if ¬ ef.contains nm ∧ ¬ ef.isEmpty then (.dropped, s, [])
      else (.processorCall event, { s with arg := some (.mpmathTriple nm) }, [])
    | _ => (.runtimeError "cannot unpack mpmath arg", s, [])
  else if event = "SymPy" then
    match arg with
    | .sympyA nm =>
      if ¬ ef.contains nm ∧ ¬ ef.isEmpty then (.dropped, s, [])
      else (.processorCall event, { s with arg := some (.sympyTriple nm) }, [])
    | _ => (.runtimeError "cannot unpack SymPy arg", s, [])
  else if event = "Get" then
    match arg with
    | .getA fp =>
      if ¬ ef.contains fp ∧ ¬ ef.isEmpty then (.dropped, s, [])
      else (.processorCall event, s, [])
    | _ => (.runtimeError "cannot unpack Get arg", s, [])
  else if event = "evaluate-result" then
    if frame.f_code ∈ s.ignore_code then (.dropped, s, [])
    else
      match arg with
      | .evalA _ orig_short orig_full trivial =>
        let use_short := ef.all (fun n => ¬ n.toList.contains backquoteChar)
        let orig_name := if use_short then orig_short else orig_full
        if ¬ ef.isEmpty ∧ ¬ ef.contains orig_name then (.dropped, s, [])
        else if trivial then (.dropped, s, [])
        else (.processorCall event, s, [])
      | _ => (.runtimeError "cannot unpack evaluate-result arg", s, [])
  else if event = "evaluate-entry" then
    if frame.f_code ∈ s.ignore_code then (.dropped, s, [])
    else
      match arg with
      | .evalA expr_name _ _ trivial =>
        if ¬ ef.isEmpty ∧ ¬ ef.contains expr_name then (.dropped, s, [])
        else if trivial then (.dropped, s, [])
        else (.processorCall event, s, [])
      | _ => (.runtimeError "cannot unpack evaluate-entry arg", s, [])
  else
    (.dropped, s, [.printed ("FIXME: Unhandled event " ++ event)])

/-- The traced-event-set gate and filter dispatch of `trace_dispatch`
(core.py lines 432-490), after the `until_condition` gate. -/
def dispatch_after_until (s : DebuggerCore) (frame : Frame) (event : String)
    (arg : EventArg) (effs : List Effect) : DispatchResult × DebuggerCore × List Effect :=
  match s.events_setting with
  | none => (.keepTracing, s, effs)
  | some trace_event_set =>
    if ¬ trace_event_set.contains event then (.keepTracing, s, effs)
    else
      let s1 : DebuggerCore := { s with arg := some (.raw arg) }
      match s1.event_filters.lookup event with
      | none => (.processorCall event, s1, effs)
      | some ef =>
        match dispatch_filter_branches s1 frame event arg ef with
        | (r, s2, effs2) => (r, s2, effs ++ effs2)

/-- `trace_dispatch` after the ignore-filter rejection (core.py lines
418-490): records the event, echoes it when the `trace` setting is on and
the event is in the print set, applies the `until_condition` gate, then the
traced-event-set gate and per-event-type filters. -/
def trace_dispatch_body (s : DebuggerCore) (frame : Frame) (event : String)
    (arg : EventArg) : DispatchResult × DebuggerCore × List Effect :=
  let s1 : DebuggerCore := { s with event := some event }
  let effs : List Effect :=
    if s1.trace_setting ∧ s1.printset.contains event then [.processorInvoked event]
    else []
  match s1.until_condition with
  | some cond =>
    if ¬ matches_condition cond frame then (.keepTracing, s1, effs)
    else dispatch_after_until s1 frame event arg effs
  | none => dispatch_after_until s1 frame event arg effs

/-- Embeds `DebuggerCore.trace_dispatch` (core.py lines 408-490): the trace
callback.  Rejects frames matched by the ignore filter before any state is
assigned; records the event; optionally echoes it; applies the
`until_condition` gate, the traced-event-set gate and the per-event-type
filters; and otherwise hands the event to the command processor. -/
def trace_dispatch (s : DebuggerCore) (frame : Frame) (event : String)
    (arg : EventArg) : DispatchResult × DebuggerCore × List Effect :=
  match s.ignore_filter with
  | some flt =>
    if flt frame then (.keepTracing, s, [])
    else trace_dispatch_body s frame event arg
  | none => trace_dispatch_body s frame event arg

/-!
## Command processor (`pymathics/trepan/processor/cmdproc.py`)
-/

/-- Outcome of one call to a command object's `run(args)` method: a
returned value (of which only truthiness matters to the caller), the
distinguished quit signal `DebuggerQuitException`, or any other raised
exception. -/
inductive RunOutcome where
  | ok (truthy : Bool)
  | quitExc
  | otherExc (msg : String)
deriving DecidableEq, Repr

/-- Embeds a registered command object as consulted by `process_command`
and `ok_for_running`: its `run` behavior and the static metadata.
`execution_set = none` embeds the attribute being absent
(`hasattr(cmd_obj, "execution_set")` false). -/
structure CmdObj where
  run : List String → RunOutcome
  min_args : Nat
  max_args : Option Nat
  need_stack : Bool
  execution_set : Option (List String)

/-- One element of a list returned by a macro expansion: a string, or a
value of some other type (carrying its type name for the error message). -/
inductive MacroVal where
  | str (s : String)
  | notStr (type_name : String)
deriving DecidableEq, Repr

/-- A value returned by a macro expansion function: a string, a list, or a
value of some other type (carrying its repr for the error message). -/
inductive MacroRet where
  | str (s : String)
  | list (l : List MacroVal)
  | other (repr_text : String)
deriving DecidableEq, Repr

/-- Outcome of calling a macro expansion function: a returned value or a
raised `TypeError`. -/
inductive MacroOutcome where
  | returns (v : MacroRet)
  | typeError
deriving Repr

/-- Result of `process_command` as observed by `process_commands`: a normal
return value (only truthiness matters: truthy leaves the loop), the
propagating `DebuggerQuitException`, or another uncaught Python error. -/
inductive PCResult where
  | ret (truthy : Bool)
  | quitRaised
  | pyError (msg : String)
deriving DecidableEq, Repr

/-- Embeds the `CommandProcessor` state consulted by `process_command`,
together with the registry, macro table and settings collaborators. -/
structure ProcState where
  /-- `self.cmd_queue` -/
  cmd_queue : List String
  /-- `self.macros`: each entry's function embeds `macros[name][0]` applied
  to the argument list `args[1:]` -/
  macros : List (String × (List String → MacroOutcome))
  /-- `self.commands` -/
  commands : List (String × CmdObj)
  /-- `self.aliases` -/
  aliases : List (String × String)
  /-- `self.last_command` -/
  last_command : Option String
  /-- `self.cmd_name` -/
  cmd_name : String
  /-- `self.cmd_argstr` -/
  cmd_argstr : String
  /-- `self.current_command` -/
  current_command : String
  /-- `self.settings("autoeval")` -/
  autoeval_setting : Bool
  /-- `self.settings("debugmacro")` -/
  debugmacro_setting : Bool
  /-- `self.intf[-1].interactive` -/
  interactive : Bool
  /-- `self.core.execution_status` -/
  execution_status : String
  /-- whether `self.frame` is not `None` -/
  has_frame : Bool
  /-- messages written through `errmsg`/`msg`/`print`, oldest first -/
  msgs : List String

/-- Recursion for `py_split`: walk the characters, accumulating the current
field in reverse, emitting a field at each whitespace run. -/
def split_ws_aux : List Char → List Char → List String
  | [], acc => if acc.isEmpty then [] else [String.mk acc.reverse]
  | c :: rest, acc =>
    if c.isWhitespace then
      if acc.isEmpty then split_ws_aux rest []
      else String.mk acc.reverse :: split_ws_aux rest []
    else split_ws_aux rest (c :: acc)

/-- Embeds Python's `str.split()` with no argument: split on whitespace
runs, dropping empty fields. -/
def py_split (s : String) : List String := split_ws_aux s.toList []

/-- Embeds Python's `str.strip()`. -/
def py_strip (s : String) : String :=
  String.mk ((s.toList.dropWhile Char.isWhitespace).reverse.dropWhile
    Char.isWhitespace).reverse

/-- Embeds Python's `str.lower()` (on the ASCII command words fed below). -/
def py_lower (s : String) : String := String.mk (s.toList.map Char.toLower)

/-- Embeds Python's `s[0]` on a string already checked to be nonempty. -/
def py_first_char (s : String) : Char := s.toList.headD ' '

/-- Embeds Python's `s[n:]` (drop the first `n` characters). -/
def py_drop_chars (s : String) (n : Nat) : String := String.mk (s.toList.drop n)

/-- Embeds Python's `str.lstrip()`. -/
def py_lstrip (s : String) : String := String.mk (s.toList.dropWhile Char.isWhitespace)

/-- Embeds `arg_split` (cmdproc.py lines 62-85): tokenize the command line
and start a new argument list at each stand-alone `";;"` token.  The shlex
tokenizer is embedded as whitespace splitting, which agrees with it on
command lines free of quote and comment characters (the only ones the
theorems below feed in). -/
def arg_split (s : String) : List (List String) :=
  (py_split s).foldl
    (fun acc t =>
      if t = ";;" then acc ++ [[]]
      else acc.dropLast ++ [(acc.getLast?.getD []) ++ [t]])
    [[]]

/-- Embeds `resolve_name` (cmdproc.py lines 381-393): a lowercased command
name found in the registry resolves to itself; otherwise an alias resolves
to its (lowercased) target; otherwise `None`. -/
def resolve_name (commands : List (String × CmdObj))
    (aliases : List (String × String)) (command_name : String) : Option String :=
  if (commands.lookup (py_lower command_name)).isNone then
    match aliases.lookup command_name with
    | some target => some (py_lower target)
    | none => none
  else some (py_lower command_name)

/-- The stack and argument-count checks of `ok_for_running`. -/
def ok_for_running_rest (p : ProcState) (cmd : CmdObj) (name : String) (nargs : Nat) :
    Bool × List String :=
  if ¬ p.has_frame ∧ cmd.need_stack then
    (false, ["Command '" ++ name ++ "' needs an execution stack."])
  else if nargs < cmd.min_args then
    (false, ["Command '" ++ name ++ "' needs at least " ++ toString cmd.min_args
      ++ " argument(s); got " ++ toString nargs ++ "."])
  else
    match cmd.max_args with
    | some mx =>
      if nargs > mx then
        (false, ["Command '" ++ name ++ "' can take at most " ++ toString mx
          ++ " argument(s); got " ++ toString nargs ++ "."])
      else (true, [])
    | none => (true, [])

/-- Embeds `CommandProcessor.ok_for_running` (cmdproc.py lines 781-810):
execution-state eligibility, stack requirement, and argument-count bounds.
Returns the verdict and the error messages written on the way. -/
def ok_for_running (p : ProcState) (cmd : CmdObj) (name : String) (nargs : Nat) :
    Bool × List String :=
  match cmd.execution_set with
  | some es =>
    if ¬ es.contains p.execution_status then
      (false, ["Command '" ++ name ++ "' is not available for execution status: "
        ++ p.execution_status])
    else ok_for_running_rest p cmd name nargs
  | none => ok_for_running_rest p cmd name nargs

/-- Rendering of a macro list element for the `debugmacro` echo. -/
def macro_val_text : MacroVal → String
  | .str s => s
  | .notStr t => t

/-- Rendering of a macro return value for the `debugmacro` echo. -/
def macro_ret_text : MacroRet → String
  | .str s => s
  | .list l => String.intercalate ", " (l.map macro_val_text)
  | .other r => r

/-- Result of the macro-expansion `while True` loop inside
`process_command`: either the loop broke out with final `args` and
`current_command`, or the loop body returned early from the function. -/
inductive MacroStep where
  | done (args : List String) (current : String)
  | earlyReturn (r : PCResult)

/-- One macro list element that is not a string? -/
def macro_val_not_str : MacroVal → Bool
  | .str _ => false
  | .notStr _ => true

/-- Embeds the macro-expansion `while True` loop of
`CommandProcessor.process_command` (cmdproc.py lines 902-950), with fuel
standing in for the loop's (absent) termination guarantee; the fuel-out
outcome embeds the nontermination a cyclic macro table causes.

Note the embedding of source line 937, `self.cmd_queue + [current_command[1:]]`:
the statement computes a list concatenation and discards the result, so the
queue is left unchanged and the expansion's remaining commands are dropped. -/
def expand_macros (p : ProcState) :
    Nat → List String → String → MacroStep × ProcState
  | 0, _, _ => (.earlyReturn (.pyError "macro expansion loop did not terminate"), p)
  | Nat.succ fuel, args, current =>
    match args with
    | [] => (.earlyReturn (.ret false), p)
    | name :: rest =>
      match p.macros.lookup name with
      | none => (.done (name :: rest) current, p)
      | some mfn =>
        match mfn rest with
        | .typeError =>
          (.earlyReturn (.ret false),
           { p with msgs := p.msgs ++ ["Error expanding macro " ++ name] })
        | .returns mret =>
          let p1 : ProcState :=
            if p.debugmacro_setting then { p with msgs := p.msgs ++ [macro_ret_text mret] }
            else p
          match mret with
          | .list l =>
            if l.any macro_val_not_str then
              (.earlyReturn (.ret false),
               { p1 with msgs := p1.msgs
                   ++ ["macro " ++ name ++ " should return a List of Strings"] })
            else
              match l with
              | [] => (.earlyReturn (.pyError "IndexError: list index out of range"), p1)
              | .str first :: _ =>
                -- cmd_queue deliberately left unchanged: see the doc comment
                expand_macros p1 fuel (py_split first) first
              | .notStr _ :: _ =>
                (.earlyReturn (.pyError "unreachable: non-string survived the check"), p1)
          | .str cs => expand_macros p1 fuel (py_split cs) cs
          | .other rp =>
            (.earlyReturn (.ret false),
             { p1 with msgs := p1.msgs
                 ++ ["macro " ++ name ++ " should return a List of Strings or a String. Got "
                     ++ rp] })

/-- Embeds the command resolution and invocation tail of the
`for args in args_list` body (cmdproc.py lines 952-977): records `cmd_name`
and `cmd_argstr`, resolves the name, checks `ok_for_running`, runs the
command inside the `try` that re-raises `DebuggerQuitException` and converts
every other exception into an "INTERNAL ERROR" message, and otherwise falls
back to the undefined-command report or auto-evaluation.  `none` as first
component means execution falls through to the next iteration. -/
def run_resolved (p : ProcState) (args : List String) (current : String) :
    Option PCResult × ProcState :=
  match args with
  | [] => (some (.ret false), p)
  | a0 :: rest =>
    let p1 : ProcState := { p with cmd_name := a0 }
    let resolved := resolve_name p1.commands p1.aliases a0
    let p2 : ProcState := { p1 with cmd_argstr := py_lstrip (py_drop_chars current a0.toList.length) }
    match resolved with
    | some cn =>
      let p3 : ProcState := { p2 with last_command := some current }
      match p3.commands.lookup cn with
      | none => (some (.pyError ("KeyError: " ++ cn)), p3)
      | some cmd =>
        match ok_for_running p3 cmd cn rest.length with
        | (true, emsgs) =>
          let p4 : ProcState := { p3 with msgs := p3.msgs ++ emsgs
                                          current_command := current }
          match cmd.run (a0 :: rest) with
          | .ok true => (some (.ret true), p4)
          | .ok false => (none, p4)
          | .quitExc => (some .quitRaised, p4)
          | .otherExc m => (none, { p4 with msgs := p4.msgs ++ ["INTERNAL ERROR: " ++ m] })
        | (false, emsgs) => (none, { p3 with msgs := p3.msgs ++ emsgs })
    | none =>
      if ¬ p2.autoeval_setting then
        (none, { p2 with msgs := p2.msgs
            ++ ["Undefined command: \x22" ++ current ++ "\x22. Try \x22help\x22."] })
      else
        (none, { p2 with msgs := p2.msgs ++ ["autoeval: " ++ current] })

/-- Embeds the `for args in args_list` loop of
`CommandProcessor.process_command` (cmdproc.py lines 900-979), threading the
`current_command` local through macro expansion. -/
def process_args_list (macro_fuel : Nat) (p : ProcState) :
    List (List String) → String → PCResult × ProcState
  | [], _ => (.ret false, p)
  | args :: restL, current =>
    if args.isEmpty then process_args_list macro_fuel p restL current
    else
      match expand_macros p macro_fuel args current with
      | (.earlyReturn r, p1) => (r, p1)
      | (.done args1 current1, p1) =>
        match run_resolved p1 args1 current1 with
        | (some r, p2) => (r, p2)
        | (none, p2) => process_args_list macro_fuel p2 restL current1

/-- Embeds `CommandProcessor.process_command` (cmdproc.py lines 875-980).
`read_line` is what `self.intf[-1].read_command(...)` would return when the
queue is empty.  Shlex parse errors cannot arise for the whitespace
tokenization embedded here, so the `bad parse` path is absent. -/
def process_command (macro_fuel : Nat) (p : ProcState) (read_line : String) :
    PCResult × ProcState :=
  let popped : Option String × ProcState :=
    match p.cmd_queue with
    | c :: restQ => (some (py_strip c), { p with cmd_queue := restQ })
    | [] =>
      let c := py_strip read_line
      if c = "" ∧ p.interactive then (p.last_command, p) else (some c, p)
  match popped with
  | (none, p1) => (.ret false, p1)
  | (some curr, p1) =>
    if curr = "" then
      (.ret false,
       if p1.interactive then
         { p1 with msgs := p1.msgs ++ ["No previous command registered, so this is a no-op."] }
       else p1)
    else if py_first_char curr = '#' then (.ret false, p1)
    else process_args_list macro_fuel p1 (arg_split curr) curr

/-- Embeds the `while not leave_loop` read-eval loop of
`CommandProcessor.process_commands` (cmdproc.py lines 847-872): each
iteration runs `process_command`; a truthy return leaves the loop, a raised
`DebuggerQuitException` (or any other uncaught error) propagates out of the
loop, and a falsy return continues with the next input line.  Fuel stands in
for the indefinite blocking read. -/
def command_loop (macro_fuel : Nat) :
    Nat → ProcState → List String → Option PCResult × ProcState
  | 0, p, _ => (none, p)
  | Nat.succ fuel, p, inputs =>
    let line := inputs.headD ""
    let restIn := inputs.tail
    match process_command macro_fuel p line with
    | (.quitRaised, p1) => (some .quitRaised, p1)
    | (.pyError m, p1) => (some (.pyError m), p1)
    | (.ret true, p1) => (some (.ret true), p1)
    | (.ret false, p1) => command_loop macro_fuel fuel p1 restIn

/-!
## Concrete fixtures used by witness and counterexample theorems
-/

/-- A small code object placed in file `a.py`. -/
def code_a : Code := { co_filename := "a.py", co_name := "main" }

/-- An outermost frame at `a.py:10`. -/
def frame_a10 : Frame := .top code_a 10

/-- An outermost frame (depth 1). -/
def frame_d1 : Frame := .top code_a 1

/-- A frame of depth 2. -/
def frame_d2 : Frame := .push code_a 20 frame_d1

/-- A frame of depth 3. -/
def frame_d3 : Frame := .push code_a 30 frame_d2

/-- A `DebuggerCore` state with the fields at their `__init__` defaults
(`step_ignore = 0`, no stop level, `different_line` unset, empty breakpoint
table), tracing the usual line/call/return events, with identity filename
canonicalization. -/
def dc0 : DebuggerCore :=
  { step_events := none
    step_ignore := 0
    last_frame := none
    last_level := 10000
    stop_level := none
    stop_on_finish := false
    last_lineno := none
    last_filename := none
    different_line := false
    stop_reason := ""
    event := none
    arg := none
    current_bp := none
    ignore_filter := none
    until_condition := none
    trace_setting := false
    printset := []
    events_setting := some ["line", "call", "return"]
    event_filters := []
    ignore_code := []
    bpmgr := { fnlist := [], bplist := [] }
    canonic := fun s => s }

/-- A `ProcState` with empty tables and a non-interactive interface. -/
def proc0 : ProcState :=
  { cmd_queue := []
    macros := []
    commands := []
    aliases := []
    last_command := none
    cmd_name := ""
    cmd_argstr := ""
    current_command := ""
    autoeval_setting := false
    debugmacro_setting := false
    interactive := false
    execution_status := "Running"
    has_frame := true
    msgs := [] }

/-!
## Theorems

Each claim of the specification is settled by one theorem below, with a
closed witness or counterexample where called for.
-/

/-- C10: for every frame excluded by the ignore filter, `trace_dispatch`
returns the keep-tracing token (the core object itself) before assigning
any state, so every field of the debugger core — including `event`, `arg`,
`step_ignore`, `last_lineno` and `last_filename` — retains the value it had
before the call.  Formalized as: the returned state is the input state,
unchanged, with no output and no processor invocation. -/
theorem C10_excluded_frame_leaves_state_unchanged (s : DebuggerCore)
    (frame : Frame) (event : String) (arg : EventArg) (flt : Frame → Bool)
    (hflt : s.ignore_filter = some flt) (hexcl : flt frame = true) :
    trace_dispatch s frame event arg = (.keepTracing, s, []) := by
  unfold trace_dispatch
  rw [hflt]
  simp [hexcl]

/-- A state whose ignore filter excludes every frame. -/
def dcC10 : DebuggerCore := { dc0 with ignore_filter := some (fun _ => true) }

/-- Witness for C10 at a concrete excluded frame. -/
theorem C10_witness :
    trace_dispatch dcC10 frame_a10 "line" .plain = (.keepTracing, dcC10, []) :=
  C10_excluded_frame_leaves_state_unchanged dcC10 frame_a10 "line" .plain
    (fun _ => true) rfl rfl

/-- An `until_condition` whose evaluation raises in every frame. -/
def until_raises : Frame → Option Bool := fun _ => none

/-- A state with an `until_condition` configured whose evaluation raises. -/
def dcC2 : DebuggerCore := { dc0 with until_condition := some until_raises }

/-- C2 (failing-input evaluation): when evaluating the configured condition
expression raises, `matches_condition` returns `False` (core.py line 342),
and `trace_dispatch` then returns the keep-tracing token without stopping:
the event is silently skipped (no processor invocation, no output), which is
fail-closed — the opposite of the fail-open behavior the claim (and the
comment inside `matches_condition`) describes. -/
theorem C2_condition_error_skips_stop :
    matches_condition until_raises frame_a10 = false
  ∧ trace_dispatch dcC2 frame_a10 "line" .plain
      = (.keepTracing, { dcC2 with event := some "line" }, []) := by
  exact ⟨rfl, rfl⟩

/-- The C6 scenario state: `step_events = {line}`, `step_ignore = 2`. -/
def dcC6 : DebuggerCore := { dc0 with step_events := some ["line"], step_ignore := 2 }

/-- The C6 scenario event sequence `[line, call, line, line]` at constant
depth (no `stop_level` is set, so every event is depth-eligible). -/
def evsC6 : List (Frame × String) :=
  [(frame_a10, "line"), (frame_a10, "call"), (frame_a10, "line"), (frame_a10, "line")]

/-- C6 counterexample: with `step_events = {line}` and `step_ignore = 2`,
the event sequence `[line, call, line, line]` does NOT stop at the 3rd event
of the list as the claim states: the 3rd event's decision is no-stop (it is
only the second qualifying line event, which consumes the last skip), and
the stop happens at the 4th event. -/
theorem C6_counterexample :
    ((run_stop_events dcC6 evsC6).1.map Prod.fst).getD 2 true = false
  ∧ ((run_stop_events dcC6 evsC6).1.map Prod.fst).getD 3 false = true := by
  decide

/-- C6 amended: with `step_events = {line}` and `step_ignore = 2`, the
sequence `[line, call, line, line]` yields exactly one stop, occurring at
the 4th event in the list (the 3rd line event), because the call event is
filtered out by `step_events` and does not decrement `step_ignore` (the
`step_ignore` trace after each event is `[1, 1, 0, 0]`), and the stop
carries the stepping reason. -/
theorem C6_amended_stop_at_fourth_event :
    (run_stop_events dcC6 evsC6).1.map Prod.fst = [false, false, false, true]
  ∧ ((run_stop_events dcC6 evsC6).1.map Prod.fst).count true = 1
  ∧ (run_stop_events dcC6 evsC6).1.map Prod.snd = [1, 1, 0, 0]
  ∧ (run_stop_events dcC6 evsC6).2.stop_reason = "at a stepping statement" := by
  decide

/-- C9: for every trace event whose type has a per-event-type filter entry
but is not one of the handled domain event types (mpmath, SymPy, Get,
evaluate-result, evaluate-entry), `trace_dispatch` prints exactly one
diagnostic, does not raise, and returns (dropping the event) without
invoking the command processor. -/
theorem C9_unhandled_event_reported_once (s : DebuggerCore) (frame : Frame)
    (event : String) (arg : EventArg) (tset ef : List String)
    (hflt : s.ignore_filter = none)
    (htrace : s.trace_setting = false)
    (huntil : s.until_condition = none)
    (hev : s.events_setting = some tset)
    (hmem : event ∈ tset)
    (hef : s.event_filters.lookup event = some ef)
    (h1 : event ≠ "mpmath") (h2 : event ≠ "SymPy") (h3 : event ≠ "Get")
    (h4 : event ≠ "evaluate-result") (h5 : event ≠ "evaluate-entry") :
    trace_dispatch s frame event arg
      = (.dropped, { s with event := some event, arg := some (.raw arg) },
         [.printed ("FIXME: Unhandled event " ++ event)]) := by
  simp [trace_dispatch, trace_dispatch_body, dispatch_after_until,
    dispatch_filter_branches, hflt, htrace, huntil, hev, hmem, hef,
    h1, h2, h3, h4, h5]

/-- A state tracing a custom event `"weird"` for which a (vacuous) filter
entry is configured but which the dispatch branches do not handle. -/
def dcC9 : DebuggerCore :=
  { dc0 with events_setting := some ["weird"], event_filters := [("weird", [])] }

/-- Witness for C9 at the concrete unhandled event type `"weird"`. -/
theorem C9_witness :
    trace_dispatch dcC9 frame_a10 "weird" .plain
      = (.dropped, { dcC9 with event := some "weird", arg := some (.raw .plain) },
         [.printed ("FIXME: Unhandled event " ++ "weird")]) :=
  C9_unhandled_event_reported_once dcC9 frame_a10 "weird" .plain ["weird"] []
    rfl rfl rfl rfl (by decide) rfl (by decide) (by decide) (by decide) (by decide) (by decide)

/-- Characterization of `is_stop_here` on a stepping-qualifying event with
positive `step_ignore`, `different_line` off and no `stop_level`: no stop,
and `step_ignore` is decremented while the other decision-relevant fields
are unchanged. -/
theorem is_stop_here_step_pos (s : DebuggerCore) (f : Frame) (e : String)
    (hdl : s.different_line = false) (hsl : s.stop_level = none)
    (hq : step_event_qualifies s.step_events e = true) (hpos : 0 < s.step_ignore) :
    (is_stop_here s f e).1 = false
  ∧ (is_stop_here s f e).2.step_ignore = s.step_ignore - 1
  ∧ (is_stop_here s f e).2.different_line = s.different_line
  ∧ (is_stop_here s f e).2.stop_level = s.stop_level
  ∧ (is_stop_here s f e).2.step_events = s.step_events
  ∧ (is_stop_here s f e).2.stop_reason = s.stop_reason := by
  have hr : step_events_restricts s.step_events e = false := by
    simpa [step_event_qualifies] using hq
  have h0 : ¬ s.step_ignore = 0 := by omega
  simp [is_stop_here, line_suppressed, hdl, hsl, stepping_check, is_step_next_stop,
    hr, h0, hpos]

/-- Characterization of `is_stop_here` on a stepping-qualifying event with
`step_ignore = 0`, `different_line` off and no `stop_level`: stop, with the
stepping reason, and `step_ignore` unchanged. -/
theorem is_stop_here_step_zero (s : DebuggerCore) (f : Frame) (e : String)
    (hdl : s.different_line = false) (hsl : s.stop_level = none)
    (hq : step_event_qualifies s.step_events e = true) (h0 : s.step_ignore = 0) :
    (is_stop_here s f e).1 = true
  ∧ (is_stop_here s f e).2.step_ignore = s.step_ignore
  ∧ (is_stop_here s f e).2.stop_reason = "at a stepping statement" := by
  have hr : step_events_restricts s.step_events e = false := by
    simpa [step_event_qualifies] using hq
  simp [is_stop_here, line_suppressed, hdl, hsl, stepping_check, is_step_next_stop,
    hr, h0]

/-- Characterization of `is_stop_here` with negative `step_ignore`,
`different_line` off and no `stop_level`: never a stop (whether or not the
event qualifies), with the decision-relevant fields unchanged. -/
theorem is_stop_here_step_neg (s : DebuggerCore) (f : Frame) (e : String)
    (hdl : s.different_line = false) (hsl : s.stop_level = none)
    (hneg : s.step_ignore < 0) :
    (is_stop_here s f e).1 = false
  ∧ (is_stop_here s f e).2.step_ignore = s.step_ignore
  ∧ (is_stop_here s f e).2.different_line = s.different_line
  ∧ (is_stop_here s f e).2.stop_level = s.stop_level := by
  have h0 : ¬ s.step_ignore = 0 := by omega
  have hgt : ¬ s.step_ignore > 0 := by omega
  by_cases hr : step_events_restricts s.step_events e
  · simp [is_stop_here, line_suppressed, hdl, hsl, stepping_check, is_step_next_stop, hr]
  · simp [is_stop_here, line_suppressed, hdl, hsl, stepping_check, is_step_next_stop,
      hr, h0, hgt]

/-- The decision/step-ignore trace the claim predicts for `step_ignore = N`:
`N` skipped events, each decrementing `step_ignore` (so it reads `N-1`,
`N-2`, ..., `0` after them), then a stop on the `(N+1)`-th with
`step_ignore` still `0`. -/
def expected_step_outputs : Nat → List (Bool × Int)
  | 0 => [(true, 0)]
  | Nat.succ n => (false, (n : Int)) :: expected_step_outputs n

/-- Stepping over `N+1` qualifying events with `step_ignore = N` produces
exactly the predicted skip/stop trace and ends with the stepping reason. -/
theorem run_stop_events_step_counts (N : Nat) :
    ∀ (s : DebuggerCore) (evs : List (Frame × String)),
      s.different_line = false → s.stop_level = none → s.step_ignore = N →
      evs.length = N + 1 →
      (∀ p ∈ evs, step_event_qualifies s.step_events p.2 = true) →
      (run_stop_events s evs).1 = expected_step_outputs N
      ∧ (run_stop_events s evs).2.stop_reason = "at a stepping statement" := by
  induction N with
  | zero =>
    intro s evs hdl hsl hsi hlen hq
    cases evs with
    | nil => simp at hlen
    | cons p rest =>
      cases rest with
      | cons q t => simp [List.length_cons] at hlen
      | nil =>
        obtain ⟨f, e⟩ := p
        have hq1 : step_event_qualifies s.step_events e = true := hq (f, e) (by simp)
        rcases hise : is_stop_here s f e with ⟨b, s2⟩
        have hch := is_stop_here_step_zero s f e hdl hsl hq1 (by simpa using hsi)
        rw [hise] at hch
        simp only at hch
        obtain ⟨hb, hsi2, hreason⟩ := hch
        simp [run_stop_events, hise, hb, hsi2, hreason, expected_step_outputs,
          hsi]
  | succ n ih =>
    intro s evs hdl hsl hsi hlen hq
    cases evs with
    | nil => simp at hlen
    | cons p rest =>
      obtain ⟨f, e⟩ := p
      have hq1 : step_event_qualifies s.step_events e = true := hq (f, e) (by simp)
      have hpos : 0 < s.step_ignore := by rw [hsi]; exact_mod_cast Nat.succ_pos n
      rcases hise : is_stop_here s f e with ⟨b, s2⟩
      have hch := is_stop_here_step_pos s f e hdl hsl hq1 hpos
      rw [hise] at hch
      simp only at hch
      obtain ⟨hb, hsi2, hdl2, hsl2, hse2, _⟩ := hch
      have hsi2' : s2.step_ignore = (n : Nat) := by
        rw [hsi2, hsi]; push_cast; ring
      have hrest := ih s2 rest (by rw [hdl2, hdl]) (by rw [hsl2, hsl]) hsi2'
        (by simpa using hlen)
        (by intro q hqq; rw [hse2]; exact hq q (List.mem_cons_of_mem _ hqq))
      constructor
      · simp only [run_stop_events, hise, expected_step_outputs]
        rw [hrest.1, hsi2', hb]
      · simp only [run_stop_events, hise]
        exact hrest.2

/-- With negative `step_ignore`, `different_line` off and no `stop_level`,
no event of any sequence ever produces a stop. -/
theorem run_stop_events_neg (evs : List (Frame × String)) :
    ∀ (s : DebuggerCore), s.different_line = false → s.stop_level = none →
      s.step_ignore < 0 →
      ∀ d ∈ (run_stop_events s evs).1, d.1 = false := by
  induction evs with
  | nil =>
    intro s _ _ _ d hd
    simp [run_stop_events] at hd
  | cons p rest ih =>
    intro s hdl hsl hneg d hd
    obtain ⟨f, e⟩ := p
    rcases hise : is_stop_here s f e with ⟨b, s2⟩
    have hch := is_stop_here_step_neg s f e hdl hsl hneg
    rw [hise] at hch
    simp only at hch
    obtain ⟨hb, hsi2, hdl2, hsl2⟩ := hch
    simp only [run_stop_events, hise, List.mem_cons] at hd
    rcases hd with hd | hd
    · rw [hd]; simpa using hb
    · exact ih s2 (by rw [hdl2, hdl]) (by rw [hsl2, hsl]) (by rw [hsi2]; exact hneg) d hd

/-- C1: for every nonnegative step-ignore value `N` and every sequence of
qualifying stepping events (events the configured step-event set does not
exclude, with no `stop_level` gate interposed and `different_line` off), the
engine skips exactly `N` such events, decrementing `step_ignore` by one on
each, and stops on the `(N+1)`-th with reason "at a stepping statement";
`N = 0` stops on the first qualifying event; negative `step_ignore` never
stops via the stepping logic. -/
theorem C1_step_ignore_stepping_semantics :
    (∀ (s : DebuggerCore) (N : Nat) (evs : List (Frame × String)),
      s.different_line = false → s.stop_level = none → s.step_ignore = N →
      evs.length = N + 1 →
      (∀ p ∈ evs, step_event_qualifies s.step_events p.2 = true) →
      (run_stop_events s evs).1 = expected_step_outputs N
      ∧ (run_stop_events s evs).2.stop_reason = "at a stepping statement")
  ∧ (∀ (s : DebuggerCore) (evs : List (Frame × String)),
      s.different_line = false → s.stop_level = none → s.step_ignore < 0 →
      (∀ p ∈ evs, step_event_qualifies s.step_events p.2 = true) →
      ∀ d ∈ (run_stop_events s evs).1, d.1 = false) :=
  ⟨fun s N evs => run_stop_events_step_counts N s evs,
   fun s evs hdl hsl hneg _hq => run_stop_events_neg evs s hdl hsl hneg⟩

/-- A state with `step_ignore = 2` and no step-event restriction. -/
def dcC1w : DebuggerCore := { dc0 with step_ignore := 2 }

/-- A state with `step_ignore = -1`. -/
def dcC1n : DebuggerCore := { dc0 with step_ignore := -1 }

/-- Three qualifying line events. -/
def evsC1 : List (Frame × String) :=
  [(frame_a10, "line"), (frame_a10, "line"), (frame_a10, "line")]

/-- Witness for C1: `step_ignore = 2` over three line events skips two and
stops on the third; `step_ignore = -1` never stops on the same sequence. -/
theorem C1_witness :
    ((run_stop_events dcC1w evsC1).1 = expected_step_outputs 2
     ∧ (run_stop_events dcC1w evsC1).2.stop_reason = "at a stepping statement")
  ∧ (∀ d ∈ (run_stop_events dcC1n evsC1).1, d.1 = false) :=
  ⟨C1_step_ignore_stepping_semantics.1 dcC1w 2 evsC1 rfl rfl (by decide) rfl (by decide),
   C1_step_ignore_stepping_semantics.2 dcC1n evsC1 rfl rfl (by decide) (by decide)⟩

/-- A suppressed duplicate line event returns no-stop with the state
unchanged (the early `return False` of `is_stop_here`). -/
theorem is_stop_here_suppressed (s : DebuggerCore) (f : Frame) (e : String)
    (hsup : line_suppressed s f e = true) :
    is_stop_here s f e = (false, s) := by
  simp [is_stop_here, hsup]

/-- C3: for every event arriving while `stop_level` is set (with the depth
cache not keyed to this frame, so the depth is recomputed): if the frame's
depth exceeds `stop_level`, no stop occurs; if the depth equals
`stop_level`, `stop_on_finish` is set and the event is a return-class event,
the engine stops with reason "in return for 'finish' command" (which
contains "finish") and clears `stop_level`. -/
theorem C3_stop_level_finish_gate (s : DebuggerCore) (f : Frame) (e : String)
    (sl : Int) (hsl : s.stop_level = some sl) (hcache : s.last_frame ≠ some f) :
    (count_frames f 0 > sl → (is_stop_here s f e).1 = false)
  ∧ (count_frames f 0 = sl → s.stop_on_finish = true →
      (e = "return" ∨ e = "c_return") →
      (is_stop_here s f e).1 = true
      ∧ (is_stop_here s f e).2.stop_reason = "in return for 'finish' command"
      ∧ (∃ a b, (is_stop_here s f e).2.stop_reason = a ++ "finish" ++ b)
      ∧ (is_stop_here s f e).2.stop_level = none) := by
  constructor
  · intro hgt
    by_cases hsup : line_suppressed s f e = true
    · rw [is_stop_here_suppressed s f e hsup]
    · have hsup' : line_suppressed s f e = false := by simpa using hsup
      simp [is_stop_here, hsup', hsl, hcache, hgt]
  · intro heq hfin hret
    have hbe : (e == "line") = false := by
      rcases hret with h | h <;> (subst h; decide)
    have hsup' : line_suppressed s f e = false := by
      simp [line_suppressed, hbe]
    have hngt : ¬ (count_frames f 0 > sl) := by omega
    have hmain :
        (is_stop_here s f e).1 = true
        ∧ (is_stop_here s f e).2.stop_reason = "in return for 'finish' command"
        ∧ (is_stop_here s f e).2.stop_level = none := by
      simp [is_stop_here, hsup', hsl, hcache, hngt, heq, hfin, hret]
    refine ⟨hmain.1, hmain.2.1, ⟨"in return for '", "' command", ?_⟩, hmain.2.2⟩
    rw [hmain.2.1]
    rfl

/-- A state in finish mode: `stop_level = 2`, `stop_on_finish` set. -/
def dcC3 : DebuggerCore := { dc0 with stop_level := some 2, stop_on_finish := true }

/-- Witness for C3: a return event at depth 2 stops with the finish reason
and clears `stop_level`; a return event at depth 3 does not stop. -/
theorem C3_witness :
    ((is_stop_here dcC3 frame_d2 "return").1 = true
     ∧ (is_stop_here dcC3 frame_d2 "return").2.stop_reason
         = "in return for 'finish' command"
     ∧ (∃ a b, (is_stop_here dcC3 frame_d2 "return").2.stop_reason
         = a ++ "finish" ++ b)
     ∧ (is_stop_here dcC3 frame_d2 "return").2.stop_level = none)
  ∧ (is_stop_here dcC3 frame_d3 "return").1 = false :=
  ⟨(C3_stop_level_finish_gate dcC3 frame_d2 "return" 2 rfl (by decide)).2
      (by decide) rfl (Or.inl rfl),
   (C3_stop_level_finish_gate dcC3 frame_d3 "return" 2 rfl (by decide)).1
      (by decide)⟩

/-- `_is_step_next_stop` never touches the last-seen location bookkeeping
or the `different_line` setting. -/
theorem is_step_next_stop_fields (s : DebuggerCore) (e : String) :
    (is_step_next_stop s e).2.last_lineno = s.last_lineno
  ∧ (is_step_next_stop s e).2.last_filename = s.last_filename
  ∧ (is_step_next_stop s e).2.different_line = s.different_line := by
  unfold is_step_next_stop
  split_ifs <;> simp

/-- The stepping check never touches the last-seen location bookkeeping or
the `different_line` setting. -/
theorem stepping_check_fields (s : DebuggerCore) (e : String) :
    (stepping_check s e).2.last_lineno = s.last_lineno
  ∧ (stepping_check s e).2.last_filename = s.last_filename
  ∧ (stepping_check s e).2.different_line = s.different_line := by
  have h := is_step_next_stop_fields s e
  unfold stepping_check
  rcases hss : is_step_next_stop s e with ⟨b, s1⟩
  rw [hss] at h
  cases b <;> simpa using h

/-- Every event that passes the duplicate-line check updates the last-seen
(line, file) bookkeeping — whatever stop decision follows — and leaves
`different_line` unchanged. -/
theorem is_stop_here_updates_last (s : DebuggerCore) (f : Frame) (e : String)
    (hns : line_suppressed s f e = false) :
    (is_stop_here s f e).2.last_lineno = some f.f_lineno
  ∧ (is_stop_here s f e).2.last_filename = some f.f_code.co_filename
  ∧ (is_stop_here s f e).2.different_line = s.different_line := by
  rcases hsl : s.stop_level with _ | sl
  · have h := stepping_check_fields
      { s with last_lineno := some f.f_lineno
               last_filename := some f.f_code.co_filename } e
    simpa [is_stop_here, hns, hsl] using h
  · by_cases hcf : s.last_frame ≠ some f
    · by_cases hgt : count_frames f 0 > sl
      · simp [is_stop_here, hns, hsl, hcf, hgt]
      · by_cases hfin : count_frames f 0 = sl ∧ s.stop_on_finish = true
            ∧ (e = "return" ∨ e = "c_return")
        · simp [is_stop_here, hns, hsl, hcf, hgt, hfin]
        · have h := stepping_check_fields
            { s with last_lineno := some f.f_lineno
                     last_filename := some f.f_code.co_filename
                     last_level := count_frames f 0
                     last_frame := some f } e
          simpa [is_stop_here, hns, hsl, hcf, hgt, hfin] using h
    · have hcf' : s.last_frame = some f := by simpa using hcf
      by_cases hgt : s.last_level > sl
      · simp [is_stop_here, hns, hsl, hcf', hgt]
      · by_cases hfin : s.last_level = sl ∧ s.stop_on_finish = true
            ∧ (e = "return" ∨ e = "c_return")
        · simp [is_stop_here, hns, hsl, hcf', hgt, hfin]
        · have h := stepping_check_fields
            { s with last_lineno := some f.f_lineno
                     last_filename := some f.f_code.co_filename } e
          simpa [is_stop_here, hns, hsl, hcf', hgt, hfin] using h

/-- Unfolding of the duplicate-line guard into its four conjuncts. -/
theorem line_suppressed_iff (s : DebuggerCore) (f : Frame) (e : String) :
    line_suppressed s f e = true ↔
      s.different_line = true ∧ e = "line" ∧ s.last_lineno = some f.f_lineno
      ∧ s.last_filename = some f.f_code.co_filename := by
  simp [line_suppressed, Bool.and_eq_true, beq_iff_eq, and_assoc]

/-- After any line event at frame `f`, the last-seen bookkeeping holds `f`'s
(line, file) pair, whether or not the event was suppressed. -/
theorem is_stop_here_line_state (s : DebuggerCore) (f : Frame)
    (hdl : s.different_line = true) :
    (is_stop_here s f "line").2.last_lineno = some f.f_lineno
  ∧ (is_stop_here s f "line").2.last_filename = some f.f_code.co_filename
  ∧ (is_stop_here s f "line").2.different_line = true := by
  by_cases hsup : line_suppressed s f "line" = true
  · rw [is_stop_here_suppressed s f "line" hsup]
    have h := (line_suppressed_iff s f "line").mp hsup
    exact ⟨h.2.2.1, h.2.2.2, hdl⟩
  · have h := is_stop_here_updates_last s f "line" (by simpa using hsup)
    exact ⟨h.1, h.2.1, by rw [h.2.2, hdl]⟩

/-- C5: when `different_line` is enabled, (a) a second consecutive line
event at the identical (file, line) pair is suppressed — returned no-stop
with the state untouched, so the two events produce at most one stop;
(b) the last-seen (line, file) bookkeeping is updated on every event that
passes the duplicate check, whatever stop decision follows; and (c) a
change in line or file re-arms stopping: the follow-up line event is not
suppressed. -/
theorem C5_different_line_suppression (s : DebuggerCore) (f : Frame)
    (hdl : s.different_line = true) :
    (is_stop_here (is_stop_here s f "line").2 f "line"
        = (false, (is_stop_here s f "line").2))
  ∧ (∀ (f2 : Frame) (e : String), line_suppressed s f2 e = false →
      (is_stop_here s f2 e).2.last_lineno = some f2.f_lineno
      ∧ (is_stop_here s f2 e).2.last_filename = some f2.f_code.co_filename)
  ∧ (∀ f2 : Frame,
      f2.f_lineno ≠ f.f_lineno ∨ f2.f_code.co_filename ≠ f.f_code.co_filename →
      line_suppressed (is_stop_here s f "line").2 f2 "line" = false) := by
  have hstate := is_stop_here_line_state s f hdl
  refine ⟨?_, ?_, ?_⟩
  · apply is_stop_here_suppressed
    rw [line_suppressed_iff]
    exact ⟨hstate.2.2, rfl, hstate.1, hstate.2.1⟩
  · intro f2 e hns
    have h := is_stop_here_updates_last s f2 e hns
    exact ⟨h.1, h.2.1⟩
  · intro f2 hdiff
    by_contra hcon
    have hsup : line_suppressed (is_stop_here s f "line").2 f2 "line" = true := by
      simpa using hcon
    have h := (line_suppressed_iff _ f2 "line").mp hsup
    rcases hdiff with hd | hd
    · apply hd
      have h1 := h.2.2.1
      rw [hstate.1] at h1
      exact (Option.some.inj h1).symm
    · apply hd
      have h1 := h.2.2.2
      rw [hstate.2.1] at h1
      exact (Option.some.inj h1).symm

/-- A state with `different_line` enabled. -/
def dcC5 : DebuggerCore := { dc0 with different_line := true }

/-- A frame at the same file but a different line than `frame_a10`. -/
def frame_a11 : Frame := .top code_a 11

/-- Witness for C5 at concrete frames: the repeated line event at `a.py:10`
is suppressed with the state untouched, the bookkeeping is updated, and a
line event at `a.py:11` is not suppressed. -/
theorem C5_witness :
    (is_stop_here (is_stop_here dcC5 frame_a10 "line").2 frame_a10 "line"
        = (false, (is_stop_here dcC5 frame_a10 "line").2))
  ∧ ((is_stop_here dcC5 frame_a10 "line").2.last_lineno = some frame_a10.f_lineno
     ∧ (is_stop_here dcC5 frame_a10 "line").2.last_filename
         = some frame_a10.f_code.co_filename)
  ∧ line_suppressed (is_stop_here dcC5 frame_a10 "line").2 frame_a11 "line" = false :=
  ⟨(C5_different_line_suppression dcC5 frame_a10 rfl).1,
   (C5_different_line_suppression dcC5 frame_a10 rfl).2.1 frame_a10 "line" (by decide),
   (C5_different_line_suppression dcC5 frame_a10 rfl).2.2 frame_a11 (Or.inl (by decide))⟩

/-- Looking up a key in an association list whose values were rewritten
in place rewrites the looked-up value. -/
theorem lookup_map_values {α β γ : Type} [BEq α] (l : List (α × β)) (g : β → γ)
    (k : α) :
    (l.map (fun p => (p.1, g p.2))).lookup k = (l.lookup k).map g := by
  induction l with
  | nil => rfl
  | cons p rest ih =>
    obtain ⟨a, b⟩ := p
    by_cases h : (k == a) = true
    · simp [List.lookup, h]
    · simp only [Bool.not_eq_true] at h
      simp [List.lookup, h, ih]

/-- C4: for a temporary (enabled, unconditional) line breakpoint that is the
entry at the frame's canonical (file, line): the first line event that hits
it causes a stop, sets `stop_reason` to a message naming the breakpoint
number with the "temporary" qualifier, rewrites the event to `brkpt`, and
deletes the breakpoint; a second pass through the same location does not
stop. -/
theorem C4_temporary_breakpoint_once (s : DebuggerCore) (f : Frame)
    (bp : Breakpoint)
    (hev : s.event = some "line")
    (hbp : s.bpmgr.bplist.lookup (s.canonic f.f_code.co_filename, f.f_lineno)
        = some [bp])
    (htemp : bp.temporary = true) (hen : bp.enabled = true)
    (hcond : bp.condition = none) :
    (is_break_here s f).1 = true
  ∧ (is_break_here s f).2.stop_reason
      = "at temporary line breakpoint " ++ toString bp.number
  ∧ (is_break_here s f).2.event = some "brkpt"
  ∧ (is_break_here s f).2.bpmgr.bplist.lookup
      (s.canonic f.f_code.co_filename, f.f_lineno) = some []
  ∧ (is_break_here (is_break_here s f).2 f).1 = false := by
  have hne : ¬ (s.event = some "call") := by rw [hev]; simp
  have hmain : is_break_here s f
      = (true, { s with current_bp := some bp
                        bpmgr := delete_breakpoint s.bpmgr bp
                        stop_reason := "at " ++ "temporary "
                          ++ ("line breakpoint " ++ toString bp.number)
                        event := some "brkpt" }) := by
    simp [is_break_here, hne, hbp, find_bp, scan_bps, hen, hcond, htemp]
    rfl
  have hdel : (delete_breakpoint s.bpmgr bp).bplist.lookup
      (s.canonic f.f_code.co_filename, f.f_lineno) = some [] := by
    unfold delete_breakpoint
    rw [lookup_map_values, hbp]
    simp
  refine ⟨by rw [hmain], ?_, by rw [hmain], by rw [hmain]; exact hdel, ?_⟩
  · rw [hmain]
    rfl
  · rw [hmain]
    have hne2 : ¬ ((some "brkpt" : Option String) = some "call") := by simp
    simp [is_break_here, hne2, hdel, find_bp, scan_bps]

/-- A temporary, enabled, unconditional breakpoint numbered 5. -/
def bpW : Breakpoint :=
  { number := 5, temporary := true, enabled := true, condition := none }

/-- A state holding breakpoint `bpW` at `a.py:10`, processing a line event. -/
def dcC4 : DebuggerCore :=
  { dc0 with event := some "line"
             bpmgr := { fnlist := [], bplist := [(("a.py", 10), [bpW])] } }

/-- Witness for C4 at the concrete breakpoint `bpW` and frame `a.py:10`. -/
theorem C4_witness :
    (is_break_here dcC4 frame_a10).1 = true
  ∧ (is_break_here dcC4 frame_a10).2.stop_reason
      = "at temporary line breakpoint " ++ toString bpW.number
  ∧ (is_break_here dcC4 frame_a10).2.event = some "brkpt"
  ∧ (is_break_here dcC4 frame_a10).2.bpmgr.bplist.lookup
      (dcC4.canonic frame_a10.f_code.co_filename, frame_a10.f_lineno) = some []
  ∧ (is_break_here (is_break_here dcC4 frame_a10).2 frame_a10).1 = false :=
  C4_temporary_breakpoint_once dcC4 frame_a10 bpW rfl rfl rfl rfl rfl

/-- A command whose metadata imposes no restriction passes `ok_for_running`
with no arguments and no error output. -/
theorem ok_for_running_trivial (p : ProcState) (cmd : CmdObj) (name : String)
    (hexe : cmd.execution_set = none) (hns : cmd.need_stack = false)
    (hmin : cmd.min_args = 0) :
    ok_for_running p cmd name 0 = (true, []) := by
  rcases hmx : cmd.max_args with _ | mx
  · simp [ok_for_running, ok_for_running_rest, hexe, hns, hmin, hmx]
  · simp [ok_for_running, ok_for_running_rest, hexe, hns, hmin, hmx]

/-- C7: the quit signal always propagates out of the command-processing
loop.  For a queued single-word command that resolves to a runnable command
object: if its `run` raises `DebuggerQuitException`, `process_command`
re-raises it (past the generic handler) and the surrounding
`process_commands` loop propagates it out; if `run` raises any other
exception, `process_command` catches it, logs it as an internal error, and
returns falsy so the loop continues. -/
theorem C7_quit_signal_propagates (p : ProcState) (w : String) (cmd : CmdObj)
    (qrest : List String) (mf : Nat) (rl : String)
    (hq : p.cmd_queue = w :: qrest)
    (htrim : py_strip w = w)
    (hsplit : arg_split w = [[w]])
    (hne : w ≠ "")
    (hhash : py_first_char w ≠ '#')
    (hmac : p.macros.lookup w = none)
    (hcmd : p.commands.lookup (py_lower w) = some cmd)
    (hexe : cmd.execution_set = none)
    (hns : cmd.need_stack = false)
    (hmin : cmd.min_args = 0) :
    (cmd.run [w] = .quitExc →
      (process_command (mf + 1) p rl).1 = .quitRaised
      ∧ ∀ (fuel : Nat) (restIn : List String),
          (command_loop (mf + 1) (fuel + 1) p (rl :: restIn)).1
            = some .quitRaised)
  ∧ (∀ m, cmd.run [w] = .otherExc m →
      (process_command (mf + 1) p rl).1 = .ret false
      ∧ ("INTERNAL ERROR: " ++ m) ∈ (process_command (mf + 1) p rl).2.msgs) := by
  have hok : ∀ pp : ProcState, ok_for_running pp cmd (py_lower w) 0 = (true, []) :=
    fun pp => ok_for_running_trivial pp cmd (py_lower w) hexe hns hmin
  constructor
  · intro hrun
    have hmainr : (process_command (mf + 1) p rl).1 = .quitRaised := by
      simp [process_command, hq, htrim, hne, hhash, hsplit, process_args_list,
        expand_macros, hmac, run_resolved, resolve_name, hcmd, hok, hrun]
    refine ⟨hmainr, ?_⟩
    intro fuel restIn
    rcases hpc : process_command (mf + 1) p rl with ⟨r, p1⟩
    rw [hpc] at hmainr
    simp only at hmainr
    simp [command_loop, hpc, hmainr]
  · intro m hrun
    constructor
    · simp [process_command, hq, htrim, hne, hhash, hsplit, process_args_list,
        expand_macros, hmac, run_resolved, resolve_name, hcmd, hok, hrun]
    · simp [process_command, hq, htrim, hne, hhash, hsplit, process_args_list,
        expand_macros, hmac, run_resolved, resolve_name, hcmd, hok, hrun]

/-- A quit command: its `run` raises `DebuggerQuitException`. -/
def quitCmdW : CmdObj :=
  { run := fun _ => .quitExc
    min_args := 0
    max_args := some 0
    need_stack := false
    execution_set := none }

/-- A faulty command: its `run` raises a `ZeroDivisionError`. -/
def badCmdW : CmdObj :=
  { run := fun _ => .otherExc "ZeroDivisionError"
    min_args := 0
    max_args := some 0
    need_stack := false
    execution_set := none }

/-- A processor with the command `quit` queued. -/
def procC7q : ProcState :=
  { proc0 with cmd_queue := ["quit"], commands := [("quit", quitCmdW)] }

/-- A processor with the faulty command `boom` queued. -/
def procC7e : ProcState :=
  { proc0 with cmd_queue := ["boom"], commands := [("boom", badCmdW)] }

/-- Witness for C7: a queued `quit` command propagates the quit signal out
of `process_command` and out of the loop; a queued faulty command is logged
as an internal error and the loop result is falsy. -/
theorem C7_witness :
    ((process_command 1 procC7q "").1 = .quitRaised
     ∧ (command_loop 1 1 procC7q ("" :: [])).1 = some .quitRaised)
  ∧ ((process_command 1 procC7e "").1 = .ret false
     ∧ ("INTERNAL ERROR: " ++ "ZeroDivisionError")
         ∈ (process_command 1 procC7e "").2.msgs) :=
  ⟨⟨((C7_quit_signal_propagates procC7q "quit" quitCmdW [] 0 "" rfl (by decide)
        (by decide) (by decide) (by decide) rfl rfl rfl rfl rfl).1 rfl).1,
    ((C7_quit_signal_propagates procC7q "quit" quitCmdW [] 0 "" rfl (by decide)
        (by decide) (by decide) (by decide) rfl rfl rfl rfl rfl).1 rfl).2 0 []⟩,
   (C7_quit_signal_propagates procC7e "boom" badCmdW [] 0 "" rfl (by decide)
        (by decide) (by decide) (by decide) rfl rfl rfl rfl rfl).2
     "ZeroDivisionError" rfl⟩

/-- A harmless command used as the first element of a macro expansion. -/
def whereStub : CmdObj :=
  { run := fun _ => .ok false
    min_args := 0
    max_args := none
    need_stack := false
    execution_set := none }

/-- A macro expanding to the list `["where", "next"]`. -/
def macroC8 : List String → MacroOutcome :=
  fun _ => .returns (.list [.str "where", .str "next"])

/-- A processor with the macro `mm` queued. -/
def procC8 : ProcState :=
  { proc0 with cmd_queue := ["mm"]
               macros := [("mm", macroC8)]
               commands := [("where", whereStub)] }

/-- C8 (failing-input evaluation): the macro `mm` expands to the list
`["where", "next"]`.  `process_command` executes the first element (both
`current_command` and `last_command` become "where"), but the pending
command queue ends EMPTY: the remaining element "next" is discarded, because
cmdproc.py line 937 computes `self.cmd_queue + [current_command[1:]]` and
drops the result.  This contradicts the claim that the remaining elements
are appended to the queue and consumed by subsequent iterations. -/
theorem C8_macro_list_remainder_dropped :
    (process_command 2 procC8 "").1 = .ret false
  ∧ (process_command 2 procC8 "").2.cmd_queue = []
  ∧ (process_command 2 procC8 "").2.current_command = "where"
  ∧ (process_command 2 procC8 "").2.last_command = some "where" := by
  decide

end MathicsTrepan
